import Mathlib

/-!
Shallow embedding of `src/lib/classes/many_to_many.py`.

The Python module defines three classes:

* `Article` — the join model, with a process-wide registry `Article.all`,
  plain attributes `author` and `magazine` set in `__init__`, and a
  write-once `title` property (5–50 character string, silently ignoring
  reassignment once `_title` exists).
* `Author` — `name` write-once (non-empty string); derived queries
  `articles`, `magazines`, `add_article`, `topic_areas`.  Authors have no
  class-level registry.
* `Magazine` — a registry `Magazine.all`; mutable, re-validated `name`
  (2–16 character string) and `category` (non-empty string); derived
  queries `articles`, `contributors`, `article_titles`,
  `contributing_authors`, and the classmethod `top_publisher`.

Modelling choices:

* Object identity: Python compares `article.author == self` by reference
  identity (no `__eq__` is defined), so Authors and Magazines are
  identified here by `Nat` ids.  A Magazine id is its index in the
  `Magazine.all` registry; Author ids are arbitrary (no registry exists).
* Values crossing a validated setter can be any Python object; we model
  them as `Value` — either a string or some non-string object — because
  the setters branch on `isinstance(value, str)`.
* The mutable state is the pair of process-wide registries together with
  the attribute contents of every registered object.  Mutating operations
  take and return a `State`; an operation that can raise returns
  `Except String Unit × State`: the first component is the normal/raised
  outcome, the second the state after the operation (a raise propagates,
  so side effects performed before it remain — relevant to constructor
  atomicity).
* `list(set(xs))` iterates a Python set in implementation-defined order;
  dict keys iterate in first-insertion order.  Both are modelled with
  `firstDedup` (keep the first occurrence of each element); every theorem
  about a `set`-derived result uses only order-independent facts
  (membership, emptiness, nodup).
-/

namespace ManyToMany

/-- A Python value as seen by a validated setter: either a `str` with the
given characters, or any non-string object (`isinstance(value, str)` is
`False`). -/
inductive Value where
  | str (s : String)
  | other
deriving DecidableEq, Repr

/-- The attribute contents of one `Article` instance.  `author` and
`magazine` are the plain attributes written by `__init__`; `title` models
the backing slot `_title` (absent until the title setter's first
successful run, hence an `Option`). -/
structure Article where
  author : Nat
  magazine : Nat
  title : Option String
deriving DecidableEq, Repr

/-- The attribute contents of one `Magazine` instance (`_name`,
`_category`). -/
structure Magazine where
  name : String
  category : String
deriving DecidableEq, Repr

/-- The process-wide mutable state: the `Article.all` and `Magazine.all`
registries (append-only lists).  A Magazine id is an index into
`magazine_all`; an Article id is an index into `article_all`. -/
structure State where
  article_all : List Article
  magazine_all : List Magazine
deriving DecidableEq, Repr

/-- The state before any construction: both registries empty. -/
def emptyState : State := { article_all := [], magazine_all := [] }

/-- First-occurrence de-duplication: models both the key order of a
Python dict (first-insertion order) and — up to the order-independent
facts we prove — `list(set(xs))`. -/
def firstDedup {α : Type} [DecidableEq α] (l : List α) : List α :=
  l.reverse.dedup.reverse

/-- The validation performed by the `Article.title` setter when `_title`
is not yet set: `isinstance(value, str) and 5 <= len(value) <= 50`,
otherwise `raise Exception(...)`. -/
def titleCheck : Value → Except String String
  | Value.str t =>
      if 5 ≤ t.length ∧ t.length ≤ 50 then Except.ok t
      else Except.error "Title must be a string between 5 and 50 characters"
  | Value.other => Except.error "Title must be a string between 5 and 50 characters"

/-- The validation performed by the `Magazine.name` setter on every
assignment: `isinstance(value, str) and 2 <= len(value) <= 16`. -/
def nameCheck : Value → Except String String
  | Value.str n =>
      if 2 ≤ n.length ∧ n.length ≤ 16 then Except.ok n
      else Except.error "Name must be a string between 2 and 16 characters"
  | Value.other => Except.error "Name must be a string between 2 and 16 characters"

/-- The validation performed by the `Magazine.category` setter on every
assignment: `isinstance(value, str) and len(value) > 0`. -/
def categoryCheck : Value → Except String String
  | Value.str c =>
      if 0 < c.length then Except.ok c
      else Except.error "Category must be a non-empty string"
  | Value.other => Except.error "Category must be a non-empty string"

/-- `Article.__init__(self, author, magazine, title)`: plain writes
`self.author = author; self.magazine = magazine` (no validation), then
`self.title = title` through the title setter (the fresh object has no
`_title`, so the setter validates and may raise — in which case the
exception propagates before `Article.all.append(self)` runs and the
registries are untouched), and finally the append. -/
def Article.init (s : State) (author magazine : Nat) (title : Value) :
    Except String Unit × State :=
  match titleCheck title with
  | Except.error e => (Except.error e, s)
  | Except.ok t =>
      (Except.ok (),
       { s with article_all :=
           s.article_all ++ [{ author := author, magazine := magazine, title := some t }] })

/-- `Magazine.__init__(self, name, category)`: `self.name = name` (name
setter, may raise), `self.category = category` (category setter, may
raise), then `Magazine.all.append(self)`.  A raise from either setter
propagates before the append. -/
def Magazine.init (s : State) (name category : Value) :
    Except String Unit × State :=
  match nameCheck name with
  | Except.error e => (Except.error e, s)
  | Except.ok n =>
      match categoryCheck category with
      | Except.error e => (Except.error e, s)
      | Except.ok c =>
          (Except.ok (),
           { s with magazine_all := s.magazine_all ++ [{ name := n, category := c }] })

/-- `article.title = value` on an existing article `i`: the setter body is
`if not hasattr(self, '_title'): ...` with no `else`, so once `_title`
holds a value the assignment neither validates nor writes nor raises. -/
def Article.setTitle (s : State) (i : Nat) (v : Value) :
    Except String Unit × State :=
  match s.article_all[i]? with
  | none => (Except.ok (), s)
  | some art =>
      match art.title with
      | some _ => (Except.ok (), s)
      | none =>
          match titleCheck v with
          | Except.error e => (Except.error e, s)
          | Except.ok t =>
              (Except.ok (),
               { s with article_all := s.article_all.set i { art with title := some t } })

/-- `article.author = v` on an existing article `i`: `Article` defines no
property named `author`, so this is a plain instance-attribute write in
Python — it always succeeds and rebinds the reference. -/
def Article.setAuthor (s : State) (i : Nat) (v : Nat) : State :=
  match s.article_all[i]? with
  | none => s
  | some art => { s with article_all := s.article_all.set i { art with author := v } }

/-- `article.magazine = v` on an existing article `i`: likewise a plain
instance-attribute write. -/
def Article.setMagazine (s : State) (i : Nat) (v : Nat) : State :=
  match s.article_all[i]? with
  | none => s
  | some art => { s with article_all := s.article_all.set i { art with magazine := v } }

/-- `magazine.name = value` on an existing magazine `i`: the name setter
re-validates on every assignment; on failure it raises and `_name` keeps
its prior value, on success `_name` becomes the new value. -/
def Magazine.setName (s : State) (i : Nat) (v : Value) :
    Except String Unit × State :=
  match s.magazine_all[i]? with
  | none => (Except.ok (), s)
  | some mag =>
      match nameCheck v with
      | Except.error e => (Except.error e, s)
      | Except.ok n =>
          (Except.ok (),
           { s with magazine_all := s.magazine_all.set i { mag with name := n } })

/-- `magazine.category = value` on an existing magazine `i`: the category
setter, re-validated on every assignment. -/
def Magazine.setCategory (s : State) (i : Nat) (v : Value) :
    Except String Unit × State :=
  match s.magazine_all[i]? with
  | none => (Except.ok (), s)
  | some mag =>
      match categoryCheck v with
      | Except.error e => (Except.error e, s)
      | Except.ok c =>
          (Except.ok (),
           { s with magazine_all := s.magazine_all.set i { mag with category := c } })

/-- `Author.articles(self)`:
`[article for article in Article.all if article.author == self]`. -/
def Author.articles (s : State) (a : Nat) : List Article :=
  s.article_all.filter (fun art => art.author == a)

/-- `Magazine.articles(self)`:
`[article for article in Article.all if article.magazine == self]`. -/
def Magazine.articles (s : State) (m : Nat) : List Article :=
  s.article_all.filter (fun art => art.magazine == m)

/-- `Author.magazines(self)`:
`list(set([article.magazine for article in self.articles()]))`. -/
def Author.magazines (s : State) (a : Nat) : List Nat :=
  firstDedup ((Author.articles s a).map Article.magazine)

/-- The category of the magazine with id `m` (dereferencing the
`article.magazine` reference; well-formed states always index into the
registry, the `""` default is unreachable for them). -/
def magCategory (s : State) (m : Nat) : String :=
  (s.magazine_all[m]?.map Magazine.category).getD ""

/-- `Author.topic_areas(self)`: `None` if `self.articles()` is empty,
otherwise
`list(set([article.magazine.category for article in self.articles()]))`. -/
def Author.topic_areas (s : State) (a : Nat) : Option (List String) :=
  if Author.articles s a = [] then none
  else some (firstDedup ((Author.articles s a).map (fun art => magCategory s art.magazine)))

/-- `Magazine.contributors(self)`:
`list(set([article.author for article in self.articles()]))`. -/
def Magazine.contributors (s : State) (m : Nat) : List Nat :=
  firstDedup ((Magazine.articles s m).map Article.author)

/-- The number of articles author `a` has in magazine `m` — the value the
`authors` dict in `contributing_authors` associates to key `a`. -/
def authCount (s : State) (m a : Nat) : Nat :=
  ((Magazine.articles s m).filter (fun art => art.author == a)).length

/-- The `result` list computed inside `contributing_authors`: the keys of
the per-author count dict (first-insertion order) filtered to those with
`count > 2`. -/
def contributingResult (s : State) (m : Nat) : List Nat :=
  (firstDedup ((Magazine.articles s m).map Article.author)).filter
    (fun a => 2 < authCount s m a)

/-- `Magazine.contributing_authors(self)`: builds a dict counting this
magazine's articles per author (keys in first-insertion order, each key's
count being `authCount`), filters the authors with `count > 2`, and
returns `result if result else None`. -/
def Magazine.contributing_authors (s : State) (m : Nat) : Option (List Nat) :=
  if contributingResult s m = [] then none else some (contributingResult s m)

/-- The number of articles published in magazine `m` — the value
`magazine_counts` associates to key `m` in `top_publisher`. -/
def magCount (s : State) (m : Nat) : Nat :=
  (Magazine.articles s m).length

/-- Python's `max(l, key=f)` for a nonempty `l`: starts from the first
element and replaces the current best only on a strictly greater key, so
ties keep the earlier element. -/
def pyMax (l : List Nat) (f : Nat → Nat) : Option Nat :=
  match l with
  | [] => none
  | a :: r => some (r.foldl (fun best x => if f best < f x then x else best) a)

/-- `Magazine.top_publisher(cls)`: `None` if `Article.all` is empty;
otherwise builds `magazine_counts` (keys = magazines of articles in
first-insertion order, values = `magCount`) and returns
`max(magazine_counts, key=magazine_counts.get)`.  The source's second
`if not magazine_counts: return None` guard is the `[]` case of `pyMax`
(dead when `Article.all` is nonempty). -/
def Magazine.top_publisher (s : State) : Option Nat :=
  if s.article_all = [] then none
  else pyMax (firstDedup (s.article_all.map Article.magazine)) (magCount s)

/-! ### Concrete scenario states, used by the witnesses

`demoMags` registers two magazines (id 0 = "Tech Weekly"/"Tech",
id 1 = "Cook Monthly"/"Food"); `demoState` then registers three articles
by author 0 in magazine 0 and one article by author 1 in magazine 1, all
through the constructors. -/

def demoMags : State :=
  (Magazine.init (Magazine.init emptyState
    (Value.str "Tech Weekly") (Value.str "Tech")).2
    (Value.str "Cook Monthly") (Value.str "Food")).2

def demoState : State :=
  (Article.init (Article.init (Article.init (Article.init demoMags
    0 0 (Value.str "Alpha one")).2
    0 0 (Value.str "Alpha two")).2
    0 0 (Value.str "Alpha three")).2
    1 1 (Value.str "Bravo one")).2

/-! ### Helper lemmas -/

theorem mem_firstDedup {α : Type} [DecidableEq α] {l : List α} {x : α} :
    x ∈ firstDedup l ↔ x ∈ l := by
  simp [firstDedup]

theorem nodup_firstDedup {α : Type} [DecidableEq α] (l : List α) :
    (firstDedup l).Nodup := by
  simpa [firstDedup] using List.nodup_dedup l.reverse

theorem firstDedup_nil_iff {α : Type} [DecidableEq α] {l : List α} :
    firstDedup l = [] ↔ l = [] := by
  simp [firstDedup]

theorem foldl_pickMax_spec (f : Nat → Nat) (l : List Nat) : ∀ a : Nat,
    (l.foldl (fun best x => if f best < f x then x else best) a = a ∨
     l.foldl (fun best x => if f best < f x then x else best) a ∈ l) ∧
    f a ≤ f (l.foldl (fun best x => if f best < f x then x else best) a) ∧
    ∀ y ∈ l, f y ≤ f (l.foldl (fun best x => if f best < f x then x else best) a) := by
  induction l with
  | nil => intro a; exact ⟨Or.inl rfl, le_refl _, by simp⟩
  | cons x l ih =>
      intro a
      simp only [List.foldl_cons]
      by_cases h : f a < f x
      · simp only [if_pos h]
        obtain ⟨hmem, hle, hall⟩ := ih x
        refine ⟨?_, le_trans (le_of_lt h) hle, ?_⟩
        · rcases hmem with h1 | h1
          · exact Or.inr (by rw [h1]; exact List.mem_cons_self x l)
          · exact Or.inr (List.mem_cons_of_mem x h1)
        · intro y hy
          rcases List.mem_cons.mp hy with rfl | hy
          · exact hle
          · exact hall y hy
      · simp only [if_neg h]
        obtain ⟨hmem, hle, hall⟩ := ih a
        refine ⟨?_, hle, ?_⟩
        · rcases hmem with h1 | h1
          · exact Or.inl h1
          · exact Or.inr (List.mem_cons_of_mem x h1)
        · intro y hy
          rcases List.mem_cons.mp hy with rfl | hy
          · exact le_trans (Nat.le_of_not_lt h) hle
          · exact hall y hy

/-! ### Claim theorems -/

/-- C2: construction is atomic with respect to the registries.  If
`Article.__init__` or `Magazine.__init__` raises during validation, the
whole state (both registries) is exactly as before; if it returns
normally, exactly one entity was appended to its registry and the other
registry is untouched. -/
theorem construction_atomic (s : State) (a m : Nat) (t nm cat : Value) :
    ((Article.init s a m t).1 = Except.ok () →
       (Article.init s a m t).2.article_all.length = s.article_all.length + 1 ∧
       (Article.init s a m t).2.magazine_all = s.magazine_all) ∧
    (∀ e, (Article.init s a m t).1 = Except.error e → (Article.init s a m t).2 = s) ∧
    ((Magazine.init s nm cat).1 = Except.ok () →
       (Magazine.init s nm cat).2.magazine_all.length = s.magazine_all.length + 1 ∧
       (Magazine.init s nm cat).2.article_all = s.article_all) ∧
    (∀ e, (Magazine.init s nm cat).1 = Except.error e → (Magazine.init s nm cat).2 = s) := by
  refine ⟨?_, ?_, ?_, ?_⟩
  · intro hok
    cases h : titleCheck t with
    | error e => simp [Article.init, h] at hok
    | ok tt => simp [Article.init, h]
  · intro e he
    cases h : titleCheck t with
    | error e2 => simp [Article.init, h]
    | ok tt => simp [Article.init, h] at he
  · intro hok
    cases h1 : nameCheck nm with
    | error e => simp [Magazine.init, h1] at hok
    | ok n =>
        cases h2 : categoryCheck cat with
        | error e => simp [Magazine.init, h1, h2] at hok
        | ok c => simp [Magazine.init, h1, h2]
  · intro e he
    cases h1 : nameCheck nm with
    | error e2 => simp [Magazine.init, h1]
    | ok n =>
        cases h2 : categoryCheck cat with
        | error e2 => simp [Magazine.init, h1, h2]
        | ok c => simp [Magazine.init, h1, h2] at he

/-- C2 witness: a too-short title makes `Article.__init__` raise and
leaves the state untouched; a non-string magazine name does the same for
`Magazine.__init__`; a valid article construction grows `Article.all` by
one. -/
theorem construction_atomic_witness :
    (Article.init demoMags 0 0 (Value.str "Hi")).2 = demoMags ∧
    (Magazine.init demoMags Value.other (Value.str "Food")).2 = demoMags ∧
    (Article.init demoMags 0 0 (Value.str "Valid title")).2.article_all.length =
      demoMags.article_all.length + 1 :=
  ⟨(construction_atomic demoMags 0 0 (Value.str "Hi") Value.other (Value.str "Food")).2.1
      "Title must be a string between 5 and 50 characters" (by rfl),
   (construction_atomic demoMags 0 0 (Value.str "Hi") Value.other (Value.str "Food")).2.2.2
      "Name must be a string between 2 and 16 characters" (by rfl),
   ((construction_atomic demoMags 0 0 (Value.str "Valid title") Value.other
      (Value.str "Food")).1 (by rfl)).1⟩

/-- C4: `Article.title` is write-once.  For an article whose `_title`
already holds `t1`, any later assignment — valid or invalid — raises no
error, changes nothing, and the title stays `t1`. -/
theorem title_write_once (s : State) (i : Nat) (art : Article) (t1 : String) (v : Value)
    (hget : s.article_all[i]? = some art) (ht : art.title = some t1) :
    Article.setTitle s i v = (Except.ok (), s) ∧
    ((Article.setTitle s i v).2.article_all[i]?).bind Article.title = some t1 := by
  have h1 : Article.setTitle s i v = (Except.ok (), s) := by
    simp [Article.setTitle, hget, ht]
  exact ⟨h1, by rw [h1]; simp [hget, ht]⟩

/-- C4 witness: article 0 of `demoState` has title "Alpha one"; assigning
a different valid title is silently ignored. -/
theorem title_write_once_witness :
    Article.setTitle demoState 0 (Value.str "Another title") = (Except.ok (), demoState) ∧
    ((Article.setTitle demoState 0 (Value.str "Another title")).2.article_all[0]?).bind
      Article.title = some "Alpha one" :=
  title_write_once demoState 0 ⟨0, 0, some "Alpha one"⟩ "Alpha one"
    (Value.str "Another title") (by decide) (by decide)

/-- C5: `Magazine.name` is re-validated on every assignment with
reject-and-preserve semantics: a non-string or a string of invalid length
raises and leaves the state (hence the prior name) unchanged, while a
valid 2–16 character string succeeds and is reflected immediately. -/
theorem magazine_name_validation (s : State) (i : Nat) (mag : Magazine) (n : String)
    (hget : s.magazine_all[i]? = some mag) :
    ((Magazine.setName s i Value.other).1 =
        Except.error "Name must be a string between 2 and 16 characters" ∧
     (Magazine.setName s i Value.other).2 = s) ∧
    (n.length < 2 ∨ 16 < n.length →
      (Magazine.setName s i (Value.str n)).1 =
        Except.error "Name must be a string between 2 and 16 characters" ∧
      (Magazine.setName s i (Value.str n)).2 = s) ∧
    (2 ≤ n.length ∧ n.length ≤ 16 →
      (Magazine.setName s i (Value.str n)).1 = Except.ok () ∧
      (Magazine.setName s i (Value.str n)).2.magazine_all[i]? =
        some { mag with name := n }) := by
  have hlt : i < s.magazine_all.length := by
    rcases List.getElem?_eq_some_iff.mp hget with ⟨hl, _⟩
    exact hl
  refine ⟨?_, ?_, ?_⟩
  · simp [Magazine.setName, nameCheck, hget]
  · intro hbad
    have hcond : ¬ (2 ≤ n.length ∧ n.length ≤ 16) := by omega
    simp [Magazine.setName, nameCheck, hget, hcond]
  · intro hgood
    constructor
    · simp [Magazine.setName, nameCheck, hget, hgood]
    · have hset := @List.getElem?_set_self _ s.magazine_all i { mag with name := n } hlt
      simp [Magazine.setName, nameCheck, hget, hgood, hset]

/-- C5 witness: on magazine 0 of `demoState` (name "Tech Weekly"),
assigning the 1-character name "X" raises and changes nothing, while
assigning "Tech Daily" succeeds and is visible immediately. -/
theorem magazine_name_validation_witness :
    ((Magazine.setName demoState 0 (Value.str "X")).1 =
       Except.error "Name must be a string between 2 and 16 characters") ∧
    ((Magazine.setName demoState 0 (Value.str "X")).2 = demoState) ∧
    ((Magazine.setName demoState 0 (Value.str "Tech Daily")).1 = Except.ok ()) ∧
    ((Magazine.setName demoState 0 (Value.str "Tech Daily")).2.magazine_all[0]? =
       some { name := "Tech Daily", category := "Tech" }) :=
  ⟨((magazine_name_validation demoState 0 ⟨"Tech Weekly", "Tech"⟩ "X" (by decide)).2.1
      (by decide)).1,
   ((magazine_name_validation demoState 0 ⟨"Tech Weekly", "Tech"⟩ "X" (by decide)).2.1
      (by decide)).2,
   ((magazine_name_validation demoState 0 ⟨"Tech Weekly", "Tech"⟩ "Tech Daily"
      (by decide)).2.2 (by decide)).1,
   ((magazine_name_validation demoState 0 ⟨"Tech Weekly", "Tech"⟩ "Tech Daily"
      (by decide)).2.2 (by decide)).2⟩

/-- C10: for an Author with zero articles, `Author.magazines()` returns
the empty list (not `None`), while `Author.topic_areas()` returns the
absent marker `None`. -/
theorem author_magazines_empty (s : State) (a : Nat)
    (h : Author.articles s a = []) :
    Author.magazines s a = [] ∧ Author.topic_areas s a = none := by
  constructor
  · simp [Author.magazines, h, firstDedup]
  · simp [Author.topic_areas, h]

/-- C10 witness: author 2 of `demoState` has no articles; `magazines()`
is `[]` and `topic_areas()` is `None`. -/
theorem author_magazines_empty_witness :
    Author.magazines demoState 2 = [] ∧ Author.topic_areas demoState 2 = none :=
  author_magazines_empty demoState 2 (by decide)

/-- C7: `Author.articles()` returns exactly the Articles whose `author`
reference equals this Author, as the order-preserving subsequence of the
registry (creation order); constructing a new Article extends the
author's list by exactly that article when (and only when) it was
constructed with this author. -/
theorem author_articles_spec (s : State) (a : Nat) :
    (Author.articles s a).Sublist s.article_all ∧
    (∀ art, art ∈ Author.articles s a ↔ art ∈ s.article_all ∧ art.author = a) ∧
    (∀ au m t tt, titleCheck t = Except.ok tt →
       Author.articles (Article.init s au m t).2 a =
         Author.articles s a ++
           (if au = a then [{ author := au, magazine := m, title := some tt }] else [])) := by
  refine ⟨List.filter_sublist _, ?_, ?_⟩
  · intro art
    simp [Author.articles, List.mem_filter]
  · intro au m t tt h
    by_cases hau : au = a
    · subst hau
      simp [Article.init, h, Author.articles, List.filter_append]
    · simp [Article.init, h, Author.articles, List.filter_append, hau]

/-- C7 witness: constructing one more article by author 0 in `demoState`
extends `Author.articles` for author 0 by exactly that article. -/
theorem author_articles_spec_witness :
    Author.articles (Article.init demoState 0 1 (Value.str "Hello again")).2 0 =
      Author.articles demoState 0 ++
        (if 0 = 0 then [{ author := 0, magazine := 1, title := some "Hello again" }]
         else []) :=
  (author_articles_spec demoState 0).2.2 0 1 (Value.str "Hello again") "Hello again" (by rfl)

/-- C8: `Author.topic_areas()` is `None` exactly when the author has zero
articles, and otherwise is a duplicate-free list containing precisely the
categories of the magazines of the author's articles. -/
theorem topic_areas_spec (s : State) (a : Nat) :
    (Author.articles s a = [] → Author.topic_areas s a = none) ∧
    (Author.topic_areas s a = none → Author.articles s a = []) ∧
    (∀ l, Author.topic_areas s a = some l → l.Nodup ∧
       ∀ c, (c ∈ l ↔ ∃ art ∈ Author.articles s a, magCategory s art.magazine = c)) := by
  refine ⟨?_, ?_, ?_⟩
  · intro h; simp [Author.topic_areas, h]
  · intro h
    by_contra hne
    simp [Author.topic_areas, hne] at h
  · intro l hl
    unfold Author.topic_areas at hl
    by_cases h : Author.articles s a = []
    · simp [h] at hl
    · rw [if_neg h] at hl
      have hx := Option.some.inj hl
      subst hx
      refine ⟨nodup_firstDedup _, ?_⟩
      intro c
      rw [mem_firstDedup]
      simp [List.mem_map]

/-- C8 witness: author 5 of `demoState` has no articles, so
`topic_areas()` is `None`; author 0 has articles and the result
(["Tech"]) is duplicate-free. -/
theorem topic_areas_spec_witness :
    Author.topic_areas demoState 5 = none ∧ (["Tech"] : List String).Nodup :=
  ⟨(topic_areas_spec demoState 5).1 (by decide),
   ((topic_areas_spec demoState 0).2.2 ["Tech"] (by decide)).1⟩

/-- C9: successfully constructing an Article for magazine `m` appends it
to the Article registry as a side effect, increases
`len(m.articles())` by exactly 1, and puts the article's author into
`m.contributors()`. -/
theorem article_init_magazine_spec (s : State) (a m : Nat) (t : Value)
    (hok : (Article.init s a m t).1 = Except.ok ()) :
    (∃ art, (Article.init s a m t).2.article_all = s.article_all ++ [art] ∧
       art.author = a ∧ art.magazine = m) ∧
    (Magazine.articles (Article.init s a m t).2 m).length =
      (Magazine.articles s m).length + 1 ∧
    a ∈ Magazine.contributors (Article.init s a m t).2 m := by
  cases h : titleCheck t with
  | error e => simp [Article.init, h] at hok
  | ok tt =>
      refine ⟨⟨{ author := a, magazine := m, title := some tt },
        by simp [Article.init, h], rfl, rfl⟩, ?_, ?_⟩
      · simp [Article.init, h, Magazine.articles, List.filter_append]
      · unfold Magazine.contributors
        rw [mem_firstDedup]
        apply List.mem_map.mpr
        refine ⟨{ author := a, magazine := m, title := some tt }, ?_, rfl⟩
        unfold Magazine.articles
        simp [Article.init, h]

/-- C9 witness: constructing an article by author 1 in magazine 0 on top
of `demoState` raises magazine 0's article count from 3 to 4 and makes
author 1 a contributor of magazine 0. -/
theorem article_init_magazine_spec_witness :
    (Magazine.articles (Article.init demoState 1 0 (Value.str "Cross post")).2 0).length =
      (Magazine.articles demoState 0).length + 1 ∧
    1 ∈ Magazine.contributors (Article.init demoState 1 0 (Value.str "Cross post")).2 0 :=
  ⟨(article_init_magazine_spec demoState 1 0 (Value.str "Cross post") (by rfl)).2.1,
   (article_init_magazine_spec demoState 1 0 (Value.str "Cross post") (by rfl)).2.2⟩

/-- An author whose article count in magazine `m` exceeds 2 appears in
the `result` list of `contributing_authors`: the count is positive, so
some article of `m` carries this author, putting the author among the
dict keys, and the `count > 2` filter keeps it. -/
theorem mem_contributingResult (s : State) (m a : Nat) (h : 2 < authCount s m a) :
    a ∈ contributingResult s m := by
  unfold contributingResult
  rw [List.mem_filter, mem_firstDedup]
  refine ⟨?_, by simpa using h⟩
  have hpos : 0 < authCount s m a := lt_trans (by norm_num) h
  obtain ⟨art, hart⟩ := List.exists_mem_of_length_pos hpos
  rw [List.mem_filter] at hart
  exact List.mem_map.mpr ⟨art, hart.1, by simpa using hart.2⟩

/-- C6: `Magazine.contributing_authors()` is `None` exactly when no
author has a strict count > 2 of articles in this magazine (in
particular with 0, 1 or 2 articles per author), and otherwise is a
nonempty duplicate-free list containing exactly the authors whose
article count in this magazine exceeds 2 — so an author is included as
soon as the count reaches 3. -/
theorem contributing_authors_spec (s : State) (m : Nat) :
    ((∀ a, authCount s m a ≤ 2) → Magazine.contributing_authors s m = none) ∧
    (Magazine.contributing_authors s m = none → ∀ a, authCount s m a ≤ 2) ∧
    (∀ l, Magazine.contributing_authors s m = some l →
       l ≠ [] ∧ l.Nodup ∧ ∀ a, (a ∈ l ↔ 2 < authCount s m a)) := by
  refine ⟨?_, ?_, ?_⟩
  · intro hall
    have hnil : contributingResult s m = [] := by
      apply List.filter_eq_nil_iff.mpr
      intro a _
      simpa using Nat.not_lt.mpr (hall a)
    simp [Magazine.contributing_authors, hnil]
  · intro hl a
    by_contra hgt
    push_neg at hgt
    have hres : contributingResult s m = [] := by
      by_cases h : contributingResult s m = []
      · exact h
      · simp [Magazine.contributing_authors, h] at hl
    have hmem := mem_contributingResult s m a hgt
    rw [hres] at hmem
    simp at hmem
  · intro l hl
    unfold Magazine.contributing_authors at hl
    by_cases hres : contributingResult s m = []
    · simp [hres] at hl
    · rw [if_neg hres] at hl
      have hx := Option.some.inj hl
      subst hx
      refine ⟨hres, (nodup_firstDedup _).filter _, ?_⟩
      intro a
      constructor
      · intro ha
        unfold contributingResult at ha
        rw [List.mem_filter] at ha
        simpa using ha.2
      · exact mem_contributingResult s m a

/-- C6 witness: in `demoState`, magazine 1 has a single article (every
author count ≤ 2), so the result is `None`, and conversely that `None`
result bounds author 1's count by 2; magazine 0 has three articles by
author 0, so the result is `[0]`, whose membership matches the count
condition for authors 0 and 1. -/
theorem contributing_authors_spec_witness :
    Magazine.contributing_authors demoState 1 = none ∧
    authCount demoState 1 1 ≤ 2 ∧
    (0 ∈ [0] ↔ 2 < authCount demoState 0 0) ∧
    (1 ∈ [0] ↔ 2 < authCount demoState 0 1) :=
  ⟨(contributing_authors_spec demoState 1).1
      (fun a => le_trans (List.length_filter_le _ _) (by decide)),
   (contributing_authors_spec demoState 1).2.1 (by decide) 1,
   ((contributing_authors_spec demoState 0).2.2 [0] (by decide)).2.2 0,
   ((contributing_authors_spec demoState 0).2.2 [0] (by decide)).2.2 1⟩

/-- C1: `Magazine.top_publisher()` returns `None` when no Articles exist,
and when some magazine's article count strictly exceeds every other
magazine's, it returns that magazine. -/
theorem top_publisher_spec (s : State) (m : Nat) :
    (s.article_all = [] → Magazine.top_publisher s = none) ∧
    (m ∈ s.article_all.map Article.magazine →
      (∀ m' ∈ s.article_all.map Article.magazine, m' ≠ m →
         magCount s m' < magCount s m) →
      Magazine.top_publisher s = some m) := by
  constructor
  · intro h; simp [Magazine.top_publisher, h]
  · intro hm hmax
    have hne : s.article_all ≠ [] := by
      intro h
      rw [h] at hm
      simp at hm
    unfold Magazine.top_publisher
    rw [if_neg hne]
    have hmk : m ∈ firstDedup (s.article_all.map Article.magazine) :=
      mem_firstDedup.mpr hm
    cases hk : firstDedup (s.article_all.map Article.magazine) with
    | nil => rw [hk] at hmk; simp at hmk
    | cons a r =>
        rw [hk] at hmk
        simp only [pyMax]
        obtain ⟨hmem, hle, hall⟩ := foldl_pickMax_spec (magCount s) r a
        set res := r.foldl
          (fun best x => if magCount s best < magCount s x then x else best) a with hres
        have hresmem : res ∈ a :: r := by
          rcases hmem with h1 | h1
          · rw [h1]; exact List.mem_cons_self a r
          · exact List.mem_cons_of_mem a h1
        have hresin : res ∈ s.article_all.map Article.magazine := by
          apply mem_firstDedup.mp
          rw [hk]
          exact hresmem
        have hmle : magCount s m ≤ magCount s res := by
          rcases List.mem_cons.mp hmk with rfl | h1
          · exact hle
          · exact hall m h1
        by_cases heq : res = m
        · rw [heq]
        · exact absurd hmle (Nat.not_le.mpr (hmax res hresin heq))

/-- C1 witness: with zero Articles `top_publisher()` is `None`; in
`demoState` — 3 articles for magazine 0 and 1 for magazine 1 — magazine 0
holds the strict maximum and is returned. -/
theorem top_publisher_spec_witness :
    Magazine.top_publisher emptyState = none ∧
    Magazine.top_publisher demoState = some 0 :=
  ⟨(top_publisher_spec emptyState 0).1 rfl,
   (top_publisher_spec demoState 0).2 (by decide) (by decide)⟩

/-- C3 counterexample: the claim that no operation after construction can
change which Author or Magazine an Article references fails — `author`
and `magazine` are plain attributes with no property guard, so on
`demoState` (whose article 0 was constructed with author 0 and
magazine 0) a direct assignment `article.author = 1` succeeds and changes
the reference, and likewise for `magazine`. -/
theorem article_refs_mutable_counterexample :
    (demoState.article_all[0]?.map Article.author = some 0) ∧
    ((Article.setAuthor demoState 0 1).article_all[0]?.map Article.author = some 1) ∧
    ((Article.setMagazine demoState 0 1).article_all[0]?.map Article.magazine = some 1) := by
  decide

/-- C3 amended: an Article's `author` and `magazine` are set exactly once
at construction to the constructor's arguments (never validated), and no
method of the classes changes them afterwards — the title setter (the
only `Article` property), the `Magazine` name/category setters, and both
constructors all leave an existing article's `author` and `magazine`
intact; but they are unguarded plain attributes, so a direct attribute
assignment after construction does change the reference to the assigned
value. -/
theorem article_refs_spec (s : State) (a m i v : Nat) (t : Value) (art : Article) :
    ((Article.init s a m t).1 = Except.ok () →
       ∃ art2, (Article.init s a m t).2.article_all[s.article_all.length]? = some art2 ∧
         art2.author = a ∧ art2.magazine = m) ∧
    (s.article_all[i]? = some art →
       (Article.setAuthor s i v).article_all[i]? = some { art with author := v } ∧
       (Article.setMagazine s i v).article_all[i]? = some { art with magazine := v }) ∧
    (s.article_all[i]? = some art →
       (∀ j w, ((Article.setTitle s j w).2.article_all[i]?).map Article.author =
                 some art.author ∧
               ((Article.setTitle s j w).2.article_all[i]?).map Article.magazine =
                 some art.magazine) ∧
       (∀ j w, (Magazine.setName s j w).2.article_all = s.article_all) ∧
       (∀ j w, (Magazine.setCategory s j w).2.article_all = s.article_all) ∧
       (∀ a2 m2 t2, (Article.init s a2 m2 t2).2.article_all[i]? = some art) ∧
       (∀ nm cat, (Magazine.init s nm cat).2.article_all[i]? = some art)) := by
  refine ⟨?_, ?_, ?_⟩
  · intro hok
    cases h : titleCheck t with
    | error e => simp [Article.init, h] at hok
    | ok tt =>
        refine ⟨{ author := a, magazine := m, title := some tt }, ?_, rfl, rfl⟩
        have harr : (Article.init s a m t).2.article_all =
            s.article_all ++ [{ author := a, magazine := m, title := some tt }] := by
          simp [Article.init, h]
        rw [harr]
        exact List.getElem?_concat_length _ _
  · intro hget
    have hlt : i < s.article_all.length := (List.getElem?_eq_some_iff.mp hget).1
    constructor
    · have hset := @List.getElem?_set_self _ s.article_all i { art with author := v } hlt
      simp [Article.setAuthor, hget, hset]
    · have hset := @List.getElem?_set_self _ s.article_all i { art with magazine := v } hlt
      simp [Article.setMagazine, hget, hset]
  · intro hget
    have hlt : i < s.article_all.length := (List.getElem?_eq_some_iff.mp hget).1
    refine ⟨?_, ?_, ?_, ?_, ?_⟩
    · intro j w
      unfold Article.setTitle
      cases hj : s.article_all[j]? with
      | none => simp [hget]
      | some artj =>
          cases hjt : artj.title with
          | some t0 => simp [hjt, hget]
          | none =>
              cases hc : titleCheck w with
              | error e => simp [hjt, hget]
              | ok t2 =>
                  by_cases hij : i = j
                  · subst hij
                    have hartj : artj = art := Option.some.inj (hj.symm.trans hget)
                    subst hartj
                    have hset :=
                      @List.getElem?_set_self _ s.article_all i
                        { artj with title := some t2 } hlt
                    simp [hjt, hset]
                  · have hset :=
                      @List.getElem?_set_ne _ s.article_all j i (Ne.symm hij)
                        { artj with title := some t2 }
                    simp [hjt, hset, hget]
    · intro j w
      unfold Magazine.setName
      cases hj : s.magazine_all[j]? with
      | none => rfl
      | some mag =>
          cases hc : nameCheck w with
          | error e => rfl
          | ok n => rfl
    · intro j w
      unfold Magazine.setCategory
      cases hj : s.magazine_all[j]? with
      | none => rfl
      | some mag =>
          cases hc : categoryCheck w with
          | error e => rfl
          | ok c => rfl
    · intro a2 m2 t2
      cases hc : titleCheck t2 with
      | error e => simpa [Article.init, hc] using hget
      | ok tt =>
          have harr : (Article.init s a2 m2 t2).2.article_all =
              s.article_all ++ [{ author := a2, magazine := m2, title := some tt }] := by
            simp [Article.init, hc]
          rw [harr, List.getElem?_append_left hlt]
          exact hget
    · intro nm cat
      cases h1 : nameCheck nm with
      | error e => simpa [Magazine.init, h1] using hget
      | ok n =>
          cases h2 : categoryCheck cat with
          | error e => simpa [Magazine.init, h1, h2] using hget
          | ok c => simpa [Magazine.init, h1, h2] using hget

/-- C3 amended witness: constructing an article with author 3 and
magazine 1 on `demoMags` registers it with exactly those references;
direct assignments on `demoState`'s article 0 change its `author`
(respectively `magazine`) to 7, while a title assignment, a magazine
rename and a further construction all leave article 0's references
untouched. -/
theorem article_refs_spec_witness :
    ((Article.init demoMags 3 1 (Value.str "First piece")).2.article_all[demoMags.article_all.length]?.map
        Article.author = some 3) ∧
    ((Article.setAuthor demoState 0 7).article_all[0]? =
       some { author := 7, magazine := 0, title := some "Alpha one" }) ∧
    ((Article.setMagazine demoState 0 7).article_all[0]? =
       some { author := 0, magazine := 7, title := some "Alpha one" }) ∧
    (((Article.setTitle demoState 0 (Value.str "Brand new title")).2.article_all[0]?).map
        Article.author = some 0) ∧
    ((Magazine.setName demoState 0 (Value.str "Tech Daily")).2.article_all =
       demoState.article_all) ∧
    ((Article.init demoState 5 5 (Value.str "Later piece")).2.article_all[0]? =
       some { author := 0, magazine := 0, title := some "Alpha one" }) := by
  refine ⟨?_, ?_, ?_, ?_, ?_, ?_⟩
  · obtain ⟨art2, h1, h2, h3⟩ :=
      (article_refs_spec demoMags 3 1 0 0 (Value.str "First piece") ⟨0, 0, none⟩).1 (by rfl)
    simp [h1, h2]
  · exact ((article_refs_spec demoState 0 0 0 7 Value.other
      ⟨0, 0, some "Alpha one"⟩).2.1 (by decide)).1
  · exact ((article_refs_spec demoState 0 0 0 7 Value.other
      ⟨0, 0, some "Alpha one"⟩).2.1 (by decide)).2
  · exact (((article_refs_spec demoState 0 0 0 7 Value.other
      ⟨0, 0, some "Alpha one"⟩).2.2 (by decide)).1 0 (Value.str "Brand new title")).1
  · exact ((article_refs_spec demoState 0 0 0 7 Value.other
      ⟨0, 0, some "Alpha one"⟩).2.2 (by decide)).2.1 0 (Value.str "Tech Daily")
  · exact ((article_refs_spec demoState 0 0 0 7 Value.other
      ⟨0, 0, some "Alpha one"⟩).2.2 (by decide)).2.2.2.1 5 5 (Value.str "Later piece")

end ManyToMany
